/-
Verification of the VectorBacktest portfolio-accounting and
performance-analytics core against its natural-language specification.

The Python sources are shallowly embedded:
* prices, positions and signals become `List ℚ` (pandas float columns of
  rational data);
* pandas/numpy values that may be NaN or ±infinity become the type `Fl`
  (a rational, positive infinity, negative infinity, or NaN), with the
  IEEE-754 behaviour of the arithmetic the code actually performs;
* each DataFrame computation becomes an explicit Lean function on lists,
  translated line by line from the Python.
-/
import Mathlib

namespace VectorBacktest

/-- A pandas/numpy float64 cell as the code uses it: a (rational) finite
value, `+inf`, `-inf`, or `NaN`. -/
inductive Fl where
  | fin : ℚ → Fl
  | pinf : Fl
  | ninf : Fl
  | nan : Fl
deriving DecidableEq, Repr

namespace Fl

/-- IEEE-754 addition on the cells the embedded code adds. -/
def add : Fl → Fl → Fl
  | fin a, fin b => fin (a + b)
  | fin _, pinf => pinf
  | fin _, ninf => ninf
  | pinf, fin _ => pinf
  | ninf, fin _ => ninf
  | pinf, pinf => pinf
  | ninf, ninf => ninf
  | pinf, ninf => nan
  | ninf, pinf => nan
  | nan, _ => nan
  | _, nan => nan

/-- IEEE-754 subtraction. -/
def sub : Fl → Fl → Fl
  | fin a, fin b => fin (a - b)
  | fin _, pinf => ninf
  | fin _, ninf => pinf
  | pinf, fin _ => pinf
  | ninf, fin _ => ninf
  | pinf, ninf => pinf
  | ninf, pinf => ninf
  | pinf, pinf => nan
  | ninf, ninf => nan
  | nan, _ => nan
  | _, nan => nan

/-- IEEE-754 multiplication restricted to the finite/NaN cells the
embedded code multiplies (infinities never reach a product in the code). -/
def mul : Fl → Fl → Fl
  | fin a, fin b => fin (a * b)
  | nan, _ => nan
  | _, nan => nan
  | pinf, _ => nan
  | _, pinf => nan
  | ninf, _ => nan
  | _, ninf => nan

end Fl

/-- Pandas `Series.diff()`: NaN at index 0, `x[t] - x[t-1]` afterwards. -/
def pandasDiff (xs : List ℚ) : List Fl :=
  match xs with
  | [] => []
  | x :: rest => Fl.nan :: pandasDiffAux x rest
where
  pandasDiffAux (prev : ℚ) : List ℚ → List Fl
    | [] => []
    | x :: rest => Fl.fin (x - prev) :: pandasDiffAux x rest

/-- Pandas `Series.cumsum()` with its default `skipna=True`: a NaN cell
stays NaN in the output and is excluded from the running sum. -/
def pandasCumsum (xs : List Fl) : List Fl :=
  pandasCumsumAux (Fl.fin 0) xs
where
  pandasCumsumAux (acc : Fl) : List Fl → List Fl
    | [] => []
    | Fl.nan :: rest => Fl.nan :: pandasCumsumAux acc rest
    | x :: rest =>
        let acc2 := acc.add x
        acc2 :: pandasCumsumAux acc2 rest

/-! ## Position sizer and portfolio accountant

`MarketOnClosePortfolio` (ma_cross.py) and `MarketOnOpenPortfolio`
(RandomForecastStrategy.py) run the same accounting, the former filling at
the bar's close price and the latter at the bar's open price.  A bar is
embedded as the pair `(position, fill_price)` of the aligned position and
fill-price series. -/

/-- The `generate_positions` method of both portfolio classes:
`positions[symbol] = 100 * signals['signal']`.  The source performs no
validation of the signal values. -/
def generate_positions (signals : List ℚ) : List ℚ :=
  signals.map (fun s => 100 * s)

/-- The `holdings` column of `backtest_portfolio`:
`positions * price` elementwise. -/
def backtest_holdings (bars : List (ℚ × ℚ)) : List Fl :=
  bars.map (fun b => Fl.fin (b.1 * b.2))

/-- The `pos_diff` series of `backtest_portfolio`: `positions.diff()`. -/
def backtest_pos_diff (bars : List (ℚ × ℚ)) : List Fl :=
  pandasDiff (bars.map Prod.fst)

/-- The `cash` column of `backtest_portfolio`:
`initial_capital - (pos_diff * price).cumsum()`. -/
def backtest_cash (bars : List (ℚ × ℚ)) (initial_capital : ℚ) : List Fl :=
  (pandasCumsum
      (List.zipWith Fl.mul (backtest_pos_diff bars)
        (bars.map (fun b => Fl.fin b.2)))).map
    (fun x => (Fl.fin initial_capital).sub x)

/-- The `total` column of `backtest_portfolio`: `cash + holdings`. -/
def backtest_total (bars : List (ℚ × ℚ)) (initial_capital : ℚ) : List Fl :=
  List.zipWith Fl.add (backtest_cash bars initial_capital)
    (backtest_holdings bars)

/-! ## Drawdown scan (performance.py, `create_drawdowns`) -/

/-- The `hwm` list of `create_drawdowns`: it is seeded with the literal
`hwm = [0]`, and the loop over `t = 1 .. len-1` appends
`max(hwm[t-1], equity_curve[t])`. -/
def hwmList (equity_curve : List ℚ) : List ℚ :=
  match equity_curve with
  | [] => []
  | _ :: rest => 0 :: hwmAux 0 rest
where
  hwmAux (prev : ℚ) : List ℚ → List ℚ
    | [] => []
    | e :: es =>
        let cur := max prev e
        cur :: hwmAux cur es

/-- The `drawdown` series of `create_drawdowns`: created as an all-NaN
series, with `drawdown[t] = hwm[t] - equity_curve[t]` assigned for
`t = 1 .. len-1` only (index 0 stays NaN, modelled as `none`). -/
def drawdownSeries (equity_curve : List ℚ) : List (Option ℚ) :=
  match equity_curve with
  | [] => []
  | _ :: rest =>
      none :: List.zipWith (fun h e => some (h - e)) (hwmList.hwmAux 0 rest) rest

/-- The `duration` series of `create_drawdowns`: all-NaN at creation;
for `t = 1 .. len-1`, `0` if `drawdown[t] == 0` else `duration[t-1] + 1`
(where `NaN + 1 = NaN`, i.e. `Option.map`). -/
def durationSeries (equity_curve : List ℚ) : List (Option ℚ) :=
  match equity_curve with
  | [] => []
  | _ :: rest =>
      none :: durAux none (List.zipWith (fun h e => h - e) (hwmList.hwmAux 0 rest) rest)
where
  durAux (prev : Option ℚ) : List ℚ → List (Option ℚ)
    | [] => []
    | d :: ds =>
        let cur := if d = 0 then some 0 else prev.map (fun x => x + 1)
        cur :: durAux cur ds

/-- Pandas `Series.max()` with its default `skipna=True`: the maximum
of the non-NaN cells, NaN (`none`) when every cell is NaN. -/
def pandasMax (xs : List (Option ℚ)) : Option ℚ :=
  (xs.filterMap id).foldl (fun acc x =>
    match acc with
    | none => some x
    | some m => some (max m x)) none

/-- The function `create_drawdowns` of performance.py: returns
`(drawdown.max(), duration.max())`. -/
def create_drawdowns (equity_curve : List ℚ) : Option ℚ × Option ℚ :=
  (pandasMax (drawdownSeries equity_curve), pandasMax (durationSeries equity_curve))

/-! ## Market-state latch (mr_spy_iwm.py, `create_long_short_market_signals`)

One row of the `pairs` DataFrame as the latch reads it: the three trigger
columns `longs`, `shorts`, `exits` (each `1.0` or `0.0` in the source,
embedded as `Bool`). -/

structure TrigRow where
  longs : Bool
  shorts : Bool
  exits : Bool
deriving DecidableEq, Repr

/-- One iteration of the latch loop: `long_market = 1` if `longs` fires,
`short_market = 1` if `shorts` fires, then `exits` resets both to 0.
The state is the pair `(long_market, short_market)`. -/
def latchStep (st : Bool × Bool) (b : TrigRow) : Bool × Bool :=
  let lm := if b.longs then true else st.1
  let sm := if b.shorts then true else st.2
  if b.exits then (false, false) else (lm, sm)

/-- The latch states recorded after each row, starting from state `st`. -/
def latchStates (st : Bool × Bool) : List TrigRow → List (Bool × Bool)
  | [] => []
  | b :: bs =>
      let st2 := latchStep st b
      st2 :: latchStates st2 bs

/-- The function `create_long_short_market_signals`: the `long_market` / `short_market`
columns written row by row from initial trackers `long_market = 0`,
`short_market = 0`, as `1.0` / `0.0` values. -/
def create_long_short_market_signals (rows : List TrigRow) : List (ℚ × ℚ) :=
  (latchStates (false, false) rows).map
    (fun st => ((if st.1 then (1 : ℚ) else 0), (if st.2 then (1 : ℚ) else 0)))

/-- After a long entry has latched, the future triggers keep the two
occupancy flags exclusive: reading forward, an `exits` row occurs before
(or together with the bar of) any `shorts` trigger. -/
def shortSafe : List TrigRow → Bool
  | [] => true
  | b :: bs => if b.exits then true else (!b.shorts && shortSafe bs)

/-- Symmetric condition for a latched short entry. -/
def longSafe : List TrigRow → Bool
  | [] => true
  | b :: bs => if b.exits then true else (!b.longs && longSafe bs)

/-- The trigger series never latches both sides: no bar fires `longs` and
`shorts` together without `exits`, and any `longs` (resp. `shorts`) bar not
cleared on the spot is followed by an `exits` bar before any opposite
entry fires. -/
def separatedTriggers : List TrigRow → Bool
  | [] => true
  | b :: bs =>
      separatedTriggers bs &&
      !(b.longs && b.shorts && !b.exits) &&
      (if b.longs && !b.exits then shortSafe bs else true) &&
      (if b.shorts && !b.exits then longSafe bs else true)

/-! ## Performance analytics (performance.py, `create_sharpe_ratio`) -/

/-- Numpy `np.mean`: arithmetic mean of the series values. -/
def npMean (xs : List ℚ) : ℚ := xs.sum / (xs.length : ℚ)

/-- The population variance underlying `np.std` (numpy default
`ddof = 0`): mean of the squared deviations from the mean. -/
def npVariance (xs : List ℚ) : ℚ :=
  ((xs.map (fun x => (x - npMean xs) ^ 2)).sum) / (xs.length : ℚ)

/-- Numpy `np.std`: square root of the population variance. -/
noncomputable def npStd (xs : List ℚ) : ℝ :=
  Real.sqrt ((npVariance xs : ℚ) : ℝ)

/-- A numpy float64 result that may be non-finite. -/
inductive SharpeResult where
  | fin : ℝ → SharpeResult
  | pinf : SharpeResult
  | ninf : SharpeResult
  | nan : SharpeResult

/-- The function `create_sharpe_ratio`:
`np.sqrt(periods) * np.mean(returns) / np.std(returns)` under IEEE-754
float semantics: empty input gives NaN (`np.mean([]) = nan`), a negative
`periods` gives NaN (`np.sqrt` of a negative is NaN), a zero standard
deviation gives `±inf` (sign of the numerator) or NaN (numerator zero),
and otherwise the finite quotient. -/
noncomputable def create_sharpe_ratio (returns : List ℚ) (periods : ℚ) :
    SharpeResult :=
  if returns = [] then SharpeResult.nan
  else if periods < 0 then SharpeResult.nan
  else if npVariance returns = 0 then
    if 0 < periods ∧ 0 < npMean returns then SharpeResult.pinf
    else if 0 < periods ∧ npMean returns < 0 then SharpeResult.ninf
    else SharpeResult.nan
  else
    SharpeResult.fin
      (Real.sqrt (periods : ℝ) * ((npMean returns : ℚ) : ℝ) / npStd returns)

/-! ## Pairs portfolio (mr_spy_iwm.py, `create_portfolio_returns`) -/

/-- One row of the `pairs` DataFrame as `create_portfolio_returns` reads
it: the two close prices and the two occupancy columns. -/
structure PairsRow where
  spy_close : ℚ
  iwm_close : ℚ
  long_market : ℚ
  short_market : ℚ
deriving DecidableEq, Repr

/-- The column `portfolio['positions'] = pairs['long_market'] - pairs['short_market']`. -/
def portfolio_positions (rows : List PairsRow) : List ℚ :=
  rows.map (fun r => r.long_market - r.short_market)

/-- The column `portfolio['total']`, built from
`portfolio[sym1] = -1.0 * spy_close * positions`,
`portfolio[sym2] = iwm_close * positions`, and their sum. -/
def portfolio_total (rows : List PairsRow) : List ℚ :=
  rows.map (fun r =>
    -1 * r.spy_close * (r.long_market - r.short_market) +
      r.iwm_close * (r.long_market - r.short_market))

/-- Pandas `Series.pct_change()` on an all-finite series: NaN at
index 0, then `x[t]/x[t-1] - 1` with the IEEE-754 outcome when the
previous value is zero. -/
def pandasPctChange (xs : List ℚ) : List Fl :=
  match xs with
  | [] => []
  | x :: rest => Fl.nan :: pctAux x rest
where
  pctAux (prev : ℚ) : List ℚ → List Fl
    | [] => []
    | x :: rest =>
        (if prev ≠ 0 then Fl.fin (x / prev - 1)
         else if 0 < x then Fl.pinf
         else if x < 0 then Fl.ninf
         else Fl.nan) :: pctAux x rest

/-- The cleaning `create_portfolio_returns` applies to the raw returns:
`fillna(0.0)`, `replace([np.inf, -np.inf], 0.0)`, `replace(-1.0, 0.0)`. -/
def cleanReturn : Fl → ℚ
  | Fl.fin q => if q = -1 then 0 else q
  | _ => 0

/-- Pandas `Series.cumprod()` on a finite series. -/
def pandasCumprod (xs : List ℚ) : List ℚ :=
  cumprodAux 1 xs
where
  cumprodAux (acc : ℚ) : List ℚ → List ℚ
    | [] => []
    | x :: rest => (acc * x) :: cumprodAux (acc * x) rest

/-- The `returns` column `create_portfolio_returns` hands back: the
period returns of `total` are cleaned and then overwritten in place by
`(returns + 1.0).cumprod()`. -/
def create_portfolio_returns (rows : List PairsRow) : List ℚ :=
  pandasCumprod
    ((pandasPctChange (portfolio_total rows)).map (fun x => cleanReturn x + 1))

/-! ## Basic lemmas about the embedded pandas primitives -/

/-- The series `pandasDiff` after index 0 pairs each element with its predecessor. -/
theorem pandasDiffAux_eq_zipWith (prev : ℚ) (xs : List ℚ) :
    pandasDiff.pandasDiffAux prev xs =
      List.zipWith (fun a b => Fl.fin (a - b)) xs (prev :: xs) := by
  induction xs generalizing prev with
  | nil => rfl
  | cons x rest ih => simp [pandasDiff.pandasDiffAux, ih]

/-! ## Claim C1 -/

/-- Claim C1: for every aligned position/price series and initial
capital, the portfolio of the open-fill and close-fill accountants has
`total[t] = cash[t] + holdings[t]` at every timestep `t` (`+` being
float addition, so the identity also holds on the NaN cells). -/
theorem c1_total_eq_cash_plus_holdings (bars : List (ℚ × ℚ))
    (initial_capital : ℚ) (t : ℕ) (x y : Fl)
    (hc : (backtest_cash bars initial_capital)[t]? = some x)
    (hh : (backtest_holdings bars)[t]? = some y) :
    (backtest_total bars initial_capital)[t]? = some (x.add y) := by
  simp [backtest_total, List.getElem?_zipWith, hc, hh]

/-- Concrete instance of C1: one bar with position 100 at price 10 and
initial capital 1000; cash at index 0 is NaN (pandas `diff`), holdings
are 1000, and the total is their float sum. -/
theorem c1_witness :
    (backtest_total [((100 : ℚ), 10)] 1000)[0]? =
      some (Fl.add Fl.nan (Fl.fin 1000)) := by
  have hc : (backtest_cash [((100 : ℚ), 10)] 1000)[0]? = some Fl.nan := by
    norm_num [ backtest_cash, backtest_pos_diff, pandasDiff, pandasCumsum,
      pandasCumsum.pandasCumsumAux, Fl.mul, Fl.sub]
  have hh : (backtest_holdings [((100 : ℚ), 10)])[0]? = some (Fl.fin 1000) := by
    norm_num [ backtest_holdings]
  exact c1_total_eq_cash_plus_holdings _ _ _ _ _ hc hh

/-! ## Claim C5 -/

/-- Claim C5, counterexample: on the single-bar input with position 100,
fill price 10 and initial capital 1000, `pos_diff[0]` is NaN (pandas
`diff()`), not `position[0]`, and `cash[0]` is NaN, not the well-defined
number `1000 - 100 * 10`. -/
theorem c5_counterexample :
    backtest_pos_diff [((100 : ℚ), 10)] = [Fl.nan] ∧
    backtest_cash [((100 : ℚ), 10)] 1000 = [Fl.nan] ∧
    Fl.nan ≠ Fl.fin (1000 - 100 * 10) := by
  refine ⟨?_, ?_, by simp⟩
  · norm_num [ backtest_pos_diff, pandasDiff, pandasDiff.pandasDiffAux]
  · norm_num [ backtest_cash, backtest_pos_diff, pandasDiff, pandasCumsum,
      pandasCumsum.pandasCumsumAux, Fl.mul, Fl.sub]

/-- Claim C5, amended: the accountant's `pos_diff` series has
`pos_diff[0] = NaN` (the first bar's position is not counted as a trade)
and `pos_diff[t] = position[t] - position[t-1]` from `t = 1` on, and
consequently `cash[0]` is NaN rather than `initial_capital` minus the
cost of the first position. -/
theorem c5_amended (bars : List (ℚ × ℚ)) (initial_capital : ℚ)
    (h : bars ≠ []) :
    (backtest_pos_diff bars).head? = some Fl.nan ∧
    (backtest_cash bars initial_capital).head? = some Fl.nan ∧
    backtest_pos_diff bars =
      Fl.nan :: List.zipWith (fun a b => Fl.fin (a - b))
        (bars.map Prod.fst).tail (bars.map Prod.fst) := by
  obtain ⟨b, bs, rfl⟩ := List.exists_cons_of_ne_nil h
  refine ⟨?_, ?_, ?_⟩
  · simp [backtest_pos_diff, pandasDiff]
  · simp [backtest_cash, backtest_pos_diff, pandasDiff, pandasCumsum,
      pandasCumsum.pandasCumsumAux, Fl.mul, Fl.sub]
  · simp [backtest_pos_diff, pandasDiff, pandasDiffAux_eq_zipWith]

/-- Concrete instance of the amended C5 on a two-bar input. -/
theorem c5_witness :
    (backtest_pos_diff [((100 : ℚ), 10), (40, 12)]).head? = some Fl.nan ∧
    (backtest_cash [((100 : ℚ), 10), (40, 12)] 1000).head? = some Fl.nan ∧
    backtest_pos_diff [((100 : ℚ), 10), (40, 12)] =
      Fl.nan :: List.zipWith (fun a b => Fl.fin (a - b))
        ([((100 : ℚ), 10), (40, 12)].map Prod.fst).tail
        ([((100 : ℚ), 10), (40, 12)].map Prod.fst) :=
  c5_amended _ _ (by simp)

/-! ## Claim C2 -/

/-- Claim C2: the drawdown scan seeds its high-water mark at the literal
0, not at the first equity value: on the equity curve `[100, 90]` the
`hwm` series is `[0, 90]`, so `hwm[0] = 0 < 100 = equity[0]`, refuting
both `hwm[0] = equity[0]` and `hwm[t] >= equity[t]` at `t = 0`. -/
theorem c2_hwm_seed_is_zero :
    hwmList [100, 90] = [0, 90] ∧ (0 : ℚ) < 100 := by
  constructor
  · norm_num [ hwmList, hwmList.hwmAux]
  · norm_num

/-! ## Claim C4 -/

/-- Claim C4: on the equity curve `[100, 90, 95, 80, 85, 120]` the code
returns `(max_drawdown, max_duration) = (15, 2)`, not the `(20, 3)` the
claim states: the high-water mark is seeded at 0 and the scan starts at
`t = 1`, so the peak 100 at `t = 0` is never seen. -/
theorem c4_drawdown_eval :
    create_drawdowns [100, 90, 95, 80, 85, 120] =
        (some 15, some 2) ∧
      (some (15 : ℚ), some (2 : ℚ)) ≠ (some 20, some 3) := by
  constructor
  · norm_num [ create_drawdowns, drawdownSeries, durationSeries,
      hwmList.hwmAux, durationSeries.durAux, pandasMax, List.filterMap,
      sup_eq_max, max_def]
  · norm_num

/-! ## Claim C3 -/

/-- A latched long survives a bar without `exits`: that bar must carry no
`shorts` trigger and the safety condition persists. -/
theorem shortSafe_tail {b : TrigRow} {bs : List TrigRow}
    (h : shortSafe (b :: bs) = true) (he : b.exits = false) :
    b.shorts = false ∧ shortSafe bs = true := by
  simp [shortSafe, he] at h
  exact ⟨h.1, h.2⟩

/-- Symmetric statement for a latched short. -/
theorem longSafe_tail {b : TrigRow} {bs : List TrigRow}
    (h : longSafe (b :: bs) = true) (he : b.exits = false) :
    b.longs = false ∧ longSafe bs = true := by
  simp [longSafe, he] at h
  exact ⟨h.1, h.2⟩

/-- Separation restricted to the tail of the trigger list. -/
theorem separatedTriggers_tail {b : TrigRow} {bs : List TrigRow}
    (h : separatedTriggers (b :: bs) = true) :
    separatedTriggers bs = true := by
  rw [separatedTriggers] at h
  simpa using (Bool.and_eq_true_iff.mp
    (Bool.and_eq_true_iff.mp (Bool.and_eq_true_iff.mp h).1).1).1

/-- Separation forbids a bar firing both entries without an exit. -/
theorem separatedTriggers_not_both {b : TrigRow} {bs : List TrigRow}
    (h : separatedTriggers (b :: bs) = true) (hl : b.longs = true)
    (hs : b.shorts = true) : b.exits = true := by
  rw [separatedTriggers, hl, hs] at h
  cases he : b.exits with
  | true => rfl
  | false => rw [he] at h; simp at h

/-- Separation makes the tail short-safe after an uncleared long entry. -/
theorem separatedTriggers_long {b : TrigRow} {bs : List TrigRow}
    (h : separatedTriggers (b :: bs) = true) (hl : b.longs = true)
    (he : b.exits = false) : shortSafe bs = true := by
  rw [separatedTriggers, hl, he] at h
  have := (Bool.and_eq_true_iff.mp (Bool.and_eq_true_iff.mp h).1).2
  simpa using this

/-- Separation makes the tail long-safe after an uncleared short entry. -/
theorem separatedTriggers_short {b : TrigRow} {bs : List TrigRow}
    (h : separatedTriggers (b :: bs) = true) (hs : b.shorts = true)
    (he : b.exits = false) : longSafe bs = true := by
  rw [separatedTriggers, hs, he] at h
  have := (Bool.and_eq_true_iff.mp h).2
  simpa using this

/-- Invariant of the latch scan: starting from a state with at most one
side latched, each latched side protected by its safety condition, and
separated triggers ahead, every recorded state has at most one side
latched. -/
theorem latchStates_exclusive :
    ∀ (rows : List TrigRow) (st : Bool × Bool),
      (st.1 = false ∨ st.2 = false) →
      (st.1 = true → shortSafe rows = true) →
      (st.2 = true → longSafe rows = true) →
      separatedTriggers rows = true →
      ∀ q ∈ latchStates st rows, q.1 = false ∨ q.2 = false := by
  intro rows
  induction rows with
  | nil => intro st _ _ _ _ q hq; simp [latchStates] at hq
  | cons b bs ih =>
    intro st hx hl hs hsep q hq
    have hq2 : q = latchStep st b ∨ q ∈ latchStates (latchStep st b) bs := by
      simpa [latchStates] using hq
    have hsep1 : separatedTriggers bs = true := separatedTriggers_tail hsep
    have excl2 : (latchStep st b).1 = false ∨ (latchStep st b).2 = false := by
      cases he : b.exits with
      | true => left; simp [latchStep, he]
      | false =>
        cases hbl : b.longs with
        | true =>
          cases hbs : b.shorts with
          | true =>
            have := separatedTriggers_not_both hsep hbl hbs
            rw [he] at this
            exact absurd this (by simp)
          | false =>
            right
            have hst2 : st.2 = false := by
              cases hst : st.2 with
              | false => rfl
              | true =>
                have := longSafe_tail (hs hst) he
                rw [hbl] at this
                exact absurd this.1 (by simp)
            simp [latchStep, he, hbs, hst2]
        | false =>
          cases hbs : b.shorts with
          | true =>
            left
            have hst1 : st.1 = false := by
              cases hst : st.1 with
              | false => rfl
              | true =>
                have := shortSafe_tail (hl hst) he
                rw [hbs] at this
                exact absurd this.1 (by simp)
            simp [latchStep, he, hbl, hst1]
          | false =>
            rcases hx with h1 | h1
            · left; simp [latchStep, he, hbl, h1]
            · right; simp [latchStep, he, hbs, h1]
    have hl2 : (latchStep st b).1 = true → shortSafe bs = true := by
      intro hq1
      cases he : b.exits with
      | true => rw [latchStep, he] at hq1; simp at hq1
      | false =>
        cases hbl : b.longs with
        | true => exact separatedTriggers_long hsep hbl he
        | false =>
          have hst1 : st.1 = true := by
            rw [latchStep, he, hbl] at hq1
            simpa using hq1
          exact (shortSafe_tail (hl hst1) he).2
    have hs2 : (latchStep st b).2 = true → longSafe bs = true := by
      intro hq1
      cases he : b.exits with
      | true => rw [latchStep, he] at hq1; simp at hq1
      | false =>
        cases hbs : b.shorts with
        | true => exact separatedTriggers_short hsep hbs he
        | false =>
          have hst2 : st.2 = true := by
            rw [latchStep, he, hbs] at hq1
            simpa using hq1
          exact (longSafe_tail (hs hst2) he).2
    rcases hq2 with rfl | hq3
    · exact excl2
    · exact ih (latchStep st b) excl2 hl2 hs2 hsep1 q hq3

/-- Claim C3, counterexample: when `enter_long` and `enter_short` both
fire on the same bar with no exit, the latch sets both occupancy flags,
so `long_market[0] * short_market[0] = 1 ≠ 0`. -/
theorem c3_counterexample :
    create_long_short_market_signals [⟨true, true, false⟩] = [(1, 1)] ∧
    (1 : ℚ) * 1 ≠ 0 := by
  constructor
  · decide
  · norm_num

/-- Claim C3, amended: the two occupancy series are mutually exclusive at
every timestep provided the triggers never latch both sides — no bar
fires both entries without an exit, and between an uncleared entry and
any opposite entry an exit bar intervenes (`separatedTriggers`). -/
theorem c3_amended (rows : List TrigRow)
    (h : separatedTriggers rows = true) :
    ∀ p ∈ create_long_short_market_signals rows, p.1 * p.2 = 0 := by
  intro p hp
  simp only [create_long_short_market_signals, List.mem_map] at hp
  obtain ⟨st, hmem, rfl⟩ := hp
  have hex := latchStates_exclusive rows (false, false) (Or.inl rfl)
      (by intro hc; simp at hc) (by intro hc; simp at hc) h st hmem
  rcases hex with h1 | h1 <;> simp [h1]

/-- Concrete instance of the amended C3 on the scenario-3 triggers. -/
theorem c3_witness :
    separatedTriggers
        [⟨false, false, false⟩, ⟨true, false, false⟩, ⟨false, false, true⟩,
          ⟨false, true, false⟩, ⟨false, false, false⟩] = true ∧
    ∀ p ∈ create_long_short_market_signals
        [⟨false, false, false⟩, ⟨true, false, false⟩, ⟨false, false, true⟩,
          ⟨false, true, false⟩, ⟨false, false, false⟩], p.1 * p.2 = 0 :=
  ⟨by decide, c3_amended _ (by decide)⟩

/-! ## Claim C6 -/

/-- Claim C6, counterexample: on the scenario triggers the latch does not
output `long_market = [0,1,1,0,0]`, `short_market = [0,0,0,1,1]`: the
exit at `t = 2` clears the long occupancy on that same bar. -/
theorem c6_counterexample :
    create_long_short_market_signals
        [⟨false, false, false⟩, ⟨true, false, false⟩, ⟨false, false, true⟩,
          ⟨false, true, false⟩, ⟨false, false, false⟩] ≠
      [(0, 0), (1, 0), (1, 0), (0, 1), (0, 1)] := by
  decide

/-- Claim C6, amended: on the scenario triggers the latch outputs
`long_market = [0,1,0,0,0]` and `short_market = [0,0,0,1,1]` (exit takes
effect on its own bar). -/
theorem c6_amended :
    create_long_short_market_signals
        [⟨false, false, false⟩, ⟨true, false, false⟩, ⟨false, false, true⟩,
          ⟨false, true, false⟩, ⟨false, false, false⟩] =
      [(0, 0), (1, 0), (0, 0), (0, 1), (0, 1)] := by
  decide

/-! ## Claim C9 -/

/-- Claim C9, counterexample: the position sizer performs no domain
validation: on the signal series `[2]` (whose value lies outside
`{-1, 0, 1}`) it produces the position series `[200]` instead of
failing. -/
theorem c9_counterexample :
    generate_positions [2] = [200] ∧
    ¬((2 : ℚ) = -1 ∨ (2 : ℚ) = 0 ∨ (2 : ℚ) = 1) := by
  constructor
  · norm_num [ generate_positions]
  · norm_num

/-- Claim C9, amended: for every signal series — whether or not its
values lie in `{-1, 0, 1}` — the position sizer returns
`position[t] = 100 * signal[t]` at every index; no input is rejected. -/
theorem c9_amended (signals : List ℚ) (t : ℕ) :
    (generate_positions signals)[t]? =
      (signals[t]?).map (fun s => 100 * s) := by
  simp [generate_positions]

/-! ## Claims C7 and C8 -/

/-- The population variance is a mean of squares, hence nonnegative. -/
theorem npVariance_nonneg (xs : List ℚ) : 0 ≤ npVariance xs := by
  unfold npVariance
  apply div_nonneg
  · apply List.sum_nonneg
    intro x hx
    simp only [List.mem_map] at hx
    obtain ⟨y, _, rfl⟩ := hx
    positivity
  · positivity

/-- The standard deviation vanishes exactly when the variance does. -/
theorem npStd_eq_zero_iff (xs : List ℚ) :
    npStd xs = 0 ↔ npVariance xs = 0 := by
  unfold npStd
  rw [Real.sqrt_eq_zero (by exact_mod_cast npVariance_nonneg xs)]
  exact_mod_cast Iff.rfl

/-- Claim C7: for every non-empty returns series with nonzero standard
deviation (and nonnegative annualization constant), the Sharpe ratio is
the finite value `sqrt(periods) * mean(returns) / std(returns)`; on the
returns `[0.01, -0.01, 0.01, -0.01]` with `periods = 252` it is exactly
0. -/
theorem c7_sharpe_formula :
    (∀ (returns : List ℚ) (periods : ℚ), returns ≠ [] → 0 ≤ periods →
        npStd returns ≠ 0 →
        create_sharpe_ratio returns periods =
          SharpeResult.fin
            (Real.sqrt ((periods : ℚ) : ℝ) * ((npMean returns : ℚ) : ℝ) /
              npStd returns)) ∧
    create_sharpe_ratio [1/100, -1/100, 1/100, -1/100] 252 =
      SharpeResult.fin 0 := by
  constructor
  · intro returns periods hne hp hstd
    have hv : ¬ npVariance returns = 0 :=
      fun hv0 => hstd ((npStd_eq_zero_iff returns).mpr hv0)
    rw [ create_sharpe_ratio, if_neg hne, if_neg (not_lt.mpr hp), if_neg hv]
  · have hne : ([1/100, -1/100, 1/100, -1/100] : List ℚ) ≠ [] := by simp
    have hm : npMean [1/100, -1/100, 1/100, -1/100] = 0 := by
      norm_num [ npMean]
    have hv : ¬ npVariance [1/100, -1/100, 1/100, -1/100] = 0 := by
      norm_num [ npVariance, npMean]
    rw [ create_sharpe_ratio, if_neg hne, if_neg (by norm_num), if_neg hv, hm]
    norm_num

/-- Concrete instance of C7 on the returns `[0, 0.02]`. -/
theorem c7_witness :
    create_sharpe_ratio [0, 1/50] 252 =
      SharpeResult.fin
        (Real.sqrt (((252 : ℚ) : ℚ) : ℝ) * ((npMean [0, 1/50] : ℚ) : ℝ) /
          npStd [0, 1/50]) := by
  have hstd : npStd [0, 1/50] ≠ 0 := by
    rw [Ne, npStd_eq_zero_iff]
    norm_num [ npVariance, npMean]
  exact c7_sharpe_formula.1 [0, 1/50] 252 (by simp) (by norm_num) hstd

/-- Claim C8: whenever the standard deviation of the returns is zero,
the Sharpe computation yields a non-finite IEEE value (`±inf` or NaN),
never a finite number — in particular never a silent 0. -/
theorem c8_zero_std_not_finite (returns : List ℚ) (periods : ℚ)
    (h : npStd returns = 0) :
    ∀ x : ℝ, create_sharpe_ratio returns periods ≠ SharpeResult.fin x := by
  intro x
  by_cases hne : returns = []
  · simp [ create_sharpe_ratio, hne]
  · have hv : npVariance returns = 0 := (npStd_eq_zero_iff returns).mp h
    by_cases hp : periods < 0
    · simp [ create_sharpe_ratio, hne, hp]
    · rw [ create_sharpe_ratio, if_neg hne, if_neg hp, if_pos hv]
      split
      · simp
      · split <;> simp

/-- Concrete instance of C8 on the constant returns `[5, 5]`. -/
theorem c8_witness :
    npStd [(5 : ℚ), 5] = 0 ∧
    create_sharpe_ratio [(5 : ℚ), 5] 252 ≠ SharpeResult.fin 0 := by
  have h : npStd [(5 : ℚ), 5] = 0 := by
    rw [npStd_eq_zero_iff]
    norm_num [ npVariance, npMean]
  exact ⟨h, c8_zero_std_not_finite _ _ h 0⟩

/-! ## Claim C10 -/

/-- First cell of the running cumulative product. -/
theorem cumprodAux_getElem_zero (acc : ℚ) (xs : List ℚ) :
    (pandasCumprod.cumprodAux acc xs)[0]? =
      (xs[0]?).map (fun v => acc * v) := by
  cases xs <;> simp [pandasCumprod.cumprodAux]

/-- Recurrence of the running cumulative product. -/
theorem cumprodAux_getElem_succ :
    ∀ (xs : List ℚ) (acc : ℚ) (t : ℕ) (x y : ℚ),
      (pandasCumprod.cumprodAux acc xs)[t]? = some x →
      xs[t + 1]? = some y →
      (pandasCumprod.cumprodAux acc xs)[t + 1]? = some (x * y) := by
  intro xs
  induction xs with
  | nil => intro acc t x y hx hy; simp at hy
  | cons a rest ih =>
    intro acc t x y hx hy
    cases t with
    | zero =>
      simp only [pandasCumprod.cumprodAux, List.getElem?_cons_zero,
        List.getElem?_cons_succ, Option.some_inj] at hx hy ⊢
      rw [cumprodAux_getElem_zero, hy, ← hx]
      simp [mul_assoc]
    | succ s =>
      simp only [pandasCumprod.cumprodAux, List.getElem?_cons_succ] at hx hy ⊢
      exact ih (acc * a) s x y hx hy

/-- Claim C10: the `returns` column handed back by
`create_portfolio_returns` is an equity-growth curve, not a series of
period returns: its first element is exactly 1, and each later element
multiplies the previous one by `1 + r`, where `r` is the cleaned
period return of `total` (NaN, ±inf and -1 replaced by 0). -/
theorem c10_returns_is_growth_curve (rows : List PairsRow)
    (h : rows ≠ []) :
    (create_portfolio_returns rows)[0]? = some 1 ∧
    ∀ (t : ℕ) (x y : ℚ),
      (create_portfolio_returns rows)[t]? = some x →
      ((pandasPctChange (portfolio_total rows)).map cleanReturn)[t + 1]? =
        some y →
      (create_portfolio_returns rows)[t + 1]? = some (x * (1 + y)) := by
  constructor
  · obtain ⟨r, rs, rfl⟩ := List.exists_cons_of_ne_nil h
    simp [create_portfolio_returns, portfolio_total, pandasPctChange,
      pandasCumprod, pandasCumprod.cumprodAux, cleanReturn]
  · intro t x y hx hy
    have hmap : (pandasPctChange (portfolio_total rows)).map
          (fun v => cleanReturn v + 1) =
        ((pandasPctChange (portfolio_total rows)).map cleanReturn).map
          (fun v => v + 1) := by
      rw [List.map_map]
      rfl
    have hy2 : ((pandasPctChange (portfolio_total rows)).map
          (fun v => cleanReturn v + 1))[t + 1]? = some (y + 1) := by
      rw [hmap, List.getElem?_map, hy]
      rfl
    rw [create_portfolio_returns, pandasCumprod] at hx ⊢
    rw [add_comm 1 y]
    exact cumprodAux_getElem_succ _ 1 t x (y + 1) hx hy2

/-- Concrete instance of C10 on a one-row pairs frame. -/
theorem c10_witness :
    (create_portfolio_returns [⟨10, 5, 1, 0⟩])[0]? = some 1 :=
  (c10_returns_is_growth_curve [⟨10, 5, 1, 0⟩] (by simp)).1

end VectorBacktest
